import Mathlib

/-!
Shallow embedding of src/broken_link_checker.py (class LinkChecker): the
URL helpers, the should_visit classifier, extract_links, check_url with
its retry and markdown-fallback policy, and the crawl loop as a step
relation. The HTTP transport is modelled as a deterministic Network: each
URL has a fixed response for HEAD and for GET, either a status code or a
transport error carrying its message string, matching the requests calls
made by the script (redirect following is folded into the returned
status).
-/

/-- Requests observable during a verification run of check_url: a HEAD
request, a GET request (the escalation issued when the HEAD reported a
status of at least 400), and the one-second sleep between retry rounds. -/
inductive Event where
  | headReq (u : String)
  | getReq (u : String)
  | sleep
deriving DecidableEq

/-- Deterministic model of the HTTP transport used by the script: for each
URL, requests.head and requests.get either return a status code (ok) or
raise a requests.RequestException whose message is the given string
(error). -/
structure Network where
  head : String → Except String Nat
  get : String → Except String Nat

/-- Configuration fields of LinkChecker.__init__ that the claims use: the
seed's network location (self.domain = urlparse(start_url).netloc), the
same_domain_only flag, the compiled ignore patterns (a compiled regex with
its search method is modelled as a Boolean predicate on the URL string),
and max_retries. -/
structure Config where
  domain : String
  sameDomainOnly : Bool
  ignorePatterns : List (String → Bool)
  maxRetries : Nat

/-- Python set.add: insert a string into a set modelled as a duplicate-free
list. -/
def insertS (a : String) (l : List String) : List String :=
  if a ∈ l then l else a :: l

/-- Python str.startswith, on the underlying character list. -/
def strStartsWith (s pre : String) : Bool := pre.data.isPrefixOf s.data

/-- Python str.endswith, on the underlying character list. -/
def strEndsWith (s suf : String) : Bool := suf.data.isSuffixOf s.data

/-- Python str.lower, on the underlying character list (the URLs involved
are ASCII). -/
def strToLower (s : String) : String := ⟨s.data.map Char.toLower⟩

/-- Python slicing s[n:], on the underlying character list. -/
def strDrop (s : String) (n : Nat) : String := ⟨s.data.drop n⟩

/-- Python slicing s[:-n], on the underlying character list. -/
def strDropRight (s : String) (n : Nat) : String := ⟨s.data.take (s.data.length - n)⟩

/-- Modelled from urllib.parse.urlparse: the network-location component of
an http or https URL (the text between the scheme separator and the first
slash, question mark or hash). Empty for other schemes, about which the
script never asks. -/
def netloc (url : String) : String :=
  let rest :=
    if strStartsWith url "https://" then strDrop url 8
    else if strStartsWith url "http://" then strDrop url 7
    else ""
  String.mk (rest.toList.takeWhile (fun c => c != '/' && c != '?' && c != '#'))

/-- Modelled from urllib.parse.urlparse: the path component of an http or
https URL - what follows the host, up to the query or fragment. -/
def urlPath (url : String) : String :=
  let rest :=
    if strStartsWith url "https://" then strDrop url 8
    else if strStartsWith url "http://" then strDrop url 7
    else url
  let beforeQuery := rest.toList.takeWhile (fun c => c != '?' && c != '#')
  String.mk (beforeQuery.dropWhile (fun c => c != '/'))

/-- LinkChecker.should_visit (source lines 62-92). Returns the Boolean the
Python method returns, paired with the updated external_links set (the one
side effect, performed in the domain-scope branch). -/
def should_visit (cfg : Config) (visited external : List String) (url : String) :
    Bool × List String :=
  if ¬ (strStartsWith url "http://" || strStartsWith url "https://") then (false, external)
  else if url ∈ visited then (false, external)
  else if cfg.ignorePatterns.any (fun p => p url) then (false, external)
  else if cfg.sameDomainOnly && (netloc url != cfg.domain) then (false, insertS url external)
  else (true, external)

/-- Outcome of the URL Classifier as the specification describes it. -/
inductive Classification where
  | Ignored
  | External
  | Crawlable
deriving DecidableEq

/-- Written from the specification's words (section 4.1): the five
classification rules applied in order, first match winning. The rule
"scheme is not http/https" is rendered as the corresponding prefix test,
since an http or https URL is exactly one beginning with "http://" or
"https://". -/
def classify_spec (cfg : Config) (visited : List String) (url : String) : Classification :=
  if ¬ (strStartsWith url "http://" || strStartsWith url "https://") then .Ignored
  else if url ∈ visited then .Ignored
  else if cfg.ignorePatterns.any (fun p => p url) then .Ignored
  else if cfg.sameDomainOnly && (netloc url != cfg.domain) then .External
  else .Crawlable

/-- LinkChecker.check_url line 139: whether the URL gets the markdown
fallback treatment, url.lower().endswith('.md'). -/
def is_markdown (url : String) : Bool :=
  strEndsWith (strToLower url) ".md"

/-- LinkChecker.check_url lines 139-147: the candidate URLs tried in each
retry round, in order. For a markdown URL: the URL itself, the URL with
its last three characters (the ".md") removed, and the latter with ".html"
appended; otherwise just the URL. -/
def urls_to_try (url : String) : List String :=
  if is_markdown url then [url, strDropRight url 3, strDropRight url 3 ++ ".html"]
  else [url]

/-- LinkChecker.check_url lines 151-169, one candidate inside one retry
round: HEAD the candidate; on a status of at least 400 escalate to a GET;
succeed with the resulting status when it is below 400. A transport error,
or a final status of at least 400, makes the candidate fail (none). -/
def candidateStatus (net : Network) (u : String) : Option Nat :=
  match net.head u with
  | .error _ => none
  | .ok s =>
    if 400 ≤ s then
      match net.get u with
      | .error _ => none
      | .ok g => if g < 400 then some g else none
    else some s

/-- Requests issued while trying one candidate: always the HEAD, plus the
escalated GET when the HEAD reported a status of at least 400. -/
def candidateEvents (net : Network) (u : String) : List Event :=
  match net.head u with
  | .error _ => [.headReq u]
  | .ok s => if 400 ≤ s then [.headReq u, .getReq u] else [.headReq u]

/-- LinkChecker.check_url inner for-loop (lines 150-169): try the
candidates in order, short-circuiting on the first success; also returns
the requests issued. -/
def tryCandidates (net : Network) : List String → Option Nat × List Event
  | [] => (none, [])
  | u :: rest =>
    match candidateStatus net u with
    | some s => (some s, candidateEvents net u)
    | none =>
      let r := tryCandidates net rest
      (r.1, candidateEvents net u ++ r.2)

/-- LinkChecker.check_url outer for-loop (lines 149-173), with n rounds
remaining: run one round over the candidates; stop on success; otherwise,
while rounds remain, sleep one second and retry. Returns the status on
success, the number of rounds entered, and the events issued. -/
def attemptLoop (net : Network) (cands : List String) : Nat → Option Nat × Nat × List Event
  | 0 => (none, 0, [])
  | n + 1 =>
    let t := tryCandidates net cands
    match t.1 with
    | some s => (some s, 1, t.2)
    | none =>
      match n with
      | 0 => (none, 1, t.2)
      | m + 1 =>
        let r := attemptLoop net cands (m + 1)
        (r.1, r.2.1 + 1, t.2 ++ Event.sleep :: r.2.2)

/-- LinkChecker.check_url (lines 128-182): the full verification of one
URL with max_retries retries. Returns the (url, status_code, error) triple
the Python method returns, paired with the trace of events: the retry
rounds over the candidate list and then, if every round failed, the final
plain HEAD probe of the original URL. -/
def check_url (net : Network) (maxRetries : Nat) (url : String) :
    (String × Option Nat × Option String) × List Event :=
  let r := attemptLoop net (urls_to_try url) (maxRetries + 1)
  match r.1 with
  | some s => ((url, some s, none), r.2.2)
  | none =>
    match net.head url with
    | .ok s => ((url, some s, none), r.2.2 ++ [Event.headReq url])
    | .error e => ((url, none, some e), r.2.2 ++ [Event.headReq url])

/-- Parsed tag as BeautifulSoup yields it: the tag name and its href and
src attributes (none when absent). The HTML parser is an external
collaborator of the core (specification section 1), so a document is
modelled as the list of tags the parser finds in it. -/
structure Tag where
  name : String
  href : Option String
  src : Option String
deriving DecidableEq

/-- Fragment removal of source line 114, re.sub applied to the resolved
URL: remove everything from the first '#' on. -/
def stripFragment (s : String) : String :=
  String.mk (s.toList.takeWhile (fun c => c != '#'))

/-- Python truthiness of tag.get(...): an absent attribute (none) and an
empty string are falsy. -/
def truthyAttr : Option String → Option String
  | none => none
  | some s => if s = "" then none else some s

/-- Source lines 121-122, src = tag.get('src') or tag.get('href') followed
by the truthiness test: the first truthy of the two attributes. -/
def srcOrHref (t : Tag) : Option String :=
  match truthyAttr t.src with
  | some s => some s
  | none => truthyAttr t.href

/-- LinkChecker.extract_links first loop (lines 109-117): anchor tags with
an href attribute; resolve the href against the base, strip the fragment,
keep the result when non-empty. The urljoin collaborator is passed in as
an explicit join function. -/
def anchor_links (join : String → String → String) (url : String) (soup : List Tag) :
    List String :=
  soup.filterMap (fun t =>
    if t.name = "a" then
      match t.href with
      | some h =>
        let absolute := stripFragment (join url h)
        if absolute = "" then none else some absolute
      | none => none
    else none)

/-- LinkChecker.extract_links second loop (lines 120-124): img, script,
link and iframe tags; take src, or href when src is missing or empty;
resolve against the base without stripping the fragment. -/
def resource_links (join : String → String → String) (url : String) (soup : List Tag) :
    List String :=
  soup.filterMap (fun t =>
    if t.name = "img" ∨ t.name = "script" ∨ t.name = "link" ∨ t.name = "iframe" then
      (srcOrHref t).map (fun s => join url s)
    else none)

/-- LinkChecker.extract_links (lines 94-126): the URLs found by the two
loops; the Python set is modelled through list membership. -/
def extract_links (join : String → String → String) (url : String) (soup : List Tag) :
    List String :=
  anchor_links join url soup ++ resource_links join url soup

/-- Modelled from urllib.parse.urljoin, restricted to the references the
concrete instances below use: an absolute http(s) reference is returned
unchanged; other shapes of reference are not modelled and fall back to the
base. -/
def urljoinAbs (base rel : String) : String :=
  if strStartsWith rel "http://" || strStartsWith rel "https://" then rel else base

/-- Broken-link test at source line 231, (status_code and status_code >=
400) or error, with Python truthiness kept explicit: a None or zero status
fails the first disjunct, a None or empty error message the second. -/
def isBroken (status : Option Nat) (err : Option String) : Bool :=
  (match status with
   | some s => s != 0 && decide (400 ≤ s)
   | none => false) ||
  (match err with
   | some e => e != ""
   | none => false)

/-- State of LinkChecker.crawl: visited_urls, to_visit, external_links and
broken_links. The defaultdict broken_links is modelled as the list of
appended entries (origin, (link, status_code, error)) in order; the
entries with a given origin form that origin's list. -/
structure CrawlState where
  visited : List String
  toVisit : List String
  external : List String
  broken : List (String × String × Option Nat × Option String)
deriving DecidableEq

/-- Initial collections of LinkChecker.__init__ (lines 51-54). -/
def initState (startUrl : String) : CrawlState :=
  { visited := [], toVisit := [startUrl], external := [], broken := [] }

/-- Python set removal of the popped element (the list model is kept
duplicate-free, so filtering the element out is set removal). -/
def removeS (a : String) (l : List String) : List String :=
  l.filter (fun x => x != a)

/-- Link-filtering loop of LinkChecker.crawl (lines 212-220): returns
(new_links, to_check, external') - the links passing should_visit, the
links not yet visited, and the external set threaded through the
should_visit side effect. -/
def filterLinks (cfg : Config) (visited : List String) :
    List String → List String → List String × List String × List String
  | [], ext => ([], [], ext)
  | l :: ls, ext =>
    let sv := should_visit cfg visited ext l
    let r := filterLinks cfg visited ls sv.2
    ((if sv.1 then l :: r.1 else r.1),
     (if l ∈ visited then r.2.1 else l :: r.2.1),
     r.2.2)

/-- Set union of source line 223, self.to_visit.update(new_links). -/
def unionS (l : List String) (adds : List String) : List String :=
  adds.foldl (fun acc a => insertS a acc) l

/-- One successful-HTML iteration of the crawl loop (lines 190-232): pop
the chosen page, mark it visited, filter the extracted links, enqueue the
new ones, verify every not-yet-visited link and append the broken outcomes
under the page. The links argument stands for the result of extract_links
on the fetched body. -/
def crawlStepHtml (cfg : Config) (net : Network) (st : CrawlState) (u : String)
    (links : List String) : CrawlState :=
  let visited' := insertS u st.visited
  let fl := filterLinks cfg visited' links st.external
  let results := fl.2.1.map (fun l => (check_url net cfg.maxRetries l).1)
  { visited := visited'
    toVisit := unionS (removeS u st.toVisit) fl.1
    external := fl.2.2
    broken := st.broken ++
      (results.filter (fun r => isBroken r.2.1 r.2.2)).map (fun r => (u, r)) }

/-- One iteration where the fetched response is not HTML (lines 201-203):
the page is only marked visited and the loop continues. -/
def crawlStepSkip (st : CrawlState) (u : String) : CrawlState :=
  { st with visited := insertS u st.visited, toVisit := removeS u st.toVisit }

/-- One iteration where fetching the page raises (lines 234-237): the
failure is appended under the synthetic "script_error" key. -/
def crawlStepFail (st : CrawlState) (u : String) (msg : String) : CrawlState :=
  { st with visited := insertS u st.visited,
            toVisit := removeS u st.toVisit,
            broken := st.broken ++ [("script_error", u, none, some msg)] }

/-- One iteration of the while-loop of LinkChecker.crawl: an arbitrary
pending page is popped and processed; the fetched body's links and the
network behaviour are parameters of the step. -/
inductive CrawlStep (cfg : Config) : CrawlState → CrawlState → Prop
  | html (net : Network) (st : CrawlState) (u : String) (links : List String)
      (hu : u ∈ st.toVisit) : CrawlStep cfg st (crawlStepHtml cfg net st u links)
  | skip (st : CrawlState) (u : String) (hu : u ∈ st.toVisit) :
      CrawlStep cfg st (crawlStepSkip st u)
  | fail (st : CrawlState) (u : String) (msg : String) (hu : u ∈ st.toVisit) :
      CrawlStep cfg st (crawlStepFail st u msg)

/-- States reachable during a crawl run started from the seed. -/
def Reachable (cfg : Config) (startUrl : String) (st : CrawlState) : Prop :=
  Relation.ReflTransGen (CrawlStep cfg) (initState startUrl) st

/-!
Lemmas about the verifier.
-/

theorem candidateStatus_lt_400 {net : Network} {u : String} {s : Nat}
    (h : candidateStatus net u = some s) : s < 400 := by
  unfold candidateStatus at h
  rcases hh : net.head u with e | v <;> rw [hh] at h
  · simp at h
  · simp only [] at h
    by_cases hv : 400 ≤ v
    · rw [if_pos hv] at h
      rcases hg : net.get u with e | g <;> rw [hg] at h
      · simp at h
      · simp only [] at h
        by_cases hg4 : g < 400
        · rw [if_pos hg4] at h; injection h with h'; omega
        · rw [if_neg hg4] at h; simp at h
    · rw [if_neg hv] at h; injection h with h'; omega

theorem sleep_not_mem_candidateEvents (net : Network) (u : String) :
    Event.sleep ∉ candidateEvents net u := by
  rcases hh : net.head u with e | v
  · simp [candidateEvents, hh]
  · by_cases hv : 400 ≤ v <;> simp [candidateEvents, hh, hv]

theorem tryCandidates_sleep_count (net : Network) (l : List String) :
    ((tryCandidates net l).2).count Event.sleep = 0 := by
  induction l with
  | nil => simp [tryCandidates]
  | cons u t ih =>
    unfold tryCandidates
    cases h : candidateStatus net u with
    | some s =>
      simp only [List.count_eq_zero]
      exact sleep_not_mem_candidateEvents net u
    | none =>
      simp only [List.count_append, ih, Nat.add_zero, List.count_eq_zero]
      exact sleep_not_mem_candidateEvents net u

theorem attemptLoop_rounds_le (net : Network) (cands : List String) :
    ∀ n, (attemptLoop net cands n).2.1 ≤ n := by
  intro n
  induction n with
  | zero => simp [attemptLoop]
  | succ m ih =>
    unfold attemptLoop
    cases htc : (tryCandidates net cands).1 with
    | some s => simp [htc]
    | none =>
      cases m with
      | zero => simp [htc]
      | succ k =>
        simp only [htc]
        simpa using Nat.add_le_add_right ih 1

theorem attemptLoop_rounds_pos (net : Network) (cands : List String) (n : Nat) :
    1 ≤ (attemptLoop net cands (n + 1)).2.1 := by
  unfold attemptLoop
  cases htc : (tryCandidates net cands).1 with
  | some s => simp [htc]
  | none =>
    cases n with
    | zero => simp [htc]
    | succ k => simp [htc]

theorem attemptLoop_sleep_count (net : Network) (cands : List String) :
    ∀ n, ((attemptLoop net cands n).2.2).count Event.sleep = (attemptLoop net cands n).2.1 - 1 := by
  intro n
  induction n with
  | zero => simp [attemptLoop]
  | succ m ih =>
    unfold attemptLoop
    cases htc : (tryCandidates net cands).1 with
    | some s =>
      simp only [htc]
      have := tryCandidates_sleep_count net cands
      simpa using this
    | none =>
      cases m with
      | zero =>
        simp only [htc]
        have := tryCandidates_sleep_count net cands
        simpa using this
      | succ k =>
        simp only [htc, List.count_append, List.count_cons]
        have h1 := tryCandidates_sleep_count net cands
        have hpos := attemptLoop_rounds_pos net cands k
        simp only [h1, ih]
        simp
        omega

theorem attemptLoop_success {net : Network} {cands : List String} {s : Nat}
    (h : (tryCandidates net cands).1 = some s) (n : Nat) :
    attemptLoop net cands (n + 1) = (some s, 1, (tryCandidates net cands).2) := by
  unfold attemptLoop
  simp [h]

theorem attemptLoop_fst_none {net : Network} {cands : List String} {n : Nat}
    (h : (attemptLoop net cands (n + 1)).1 = none) : (tryCandidates net cands).1 = none := by
  by_contra hne
  rcases Option.ne_none_iff_exists'.mp hne with ⟨s, hs⟩
  rw [attemptLoop_success hs n] at h
  simp at h

theorem tryCandidates_first_success {net : Network} {s : Nat} :
    ∀ (pre : List String) (u : String) (rest : List String),
    (∀ v ∈ pre, candidateStatus net v = none) → candidateStatus net u = some s →
    tryCandidates net (pre ++ u :: rest) =
      (some s, (pre.map (candidateEvents net)).flatten ++ candidateEvents net u) := by
  intro pre
  induction pre with
  | nil =>
    intro u rest hpre hu
    unfold tryCandidates
    simp [hu]
  | cons v t ih =>
    intro u rest hpre hu
    have hv : candidateStatus net v = none := hpre v (by simp)
    simp only [List.cons_append]
    unfold tryCandidates
    simp only [hv]
    rw [ih u rest (fun w hw => hpre w (by simp [hw])) hu]
    simp

theorem urls_to_try_head (url : String) : ∃ t, urls_to_try url = url :: t := by
  unfold urls_to_try
  split
  · exact ⟨_, rfl⟩
  · exact ⟨_, rfl⟩

theorem tryCandidates_fst_none_head {net : Network} {u : String} {t : List String}
    (h : (tryCandidates net (u :: t)).1 = none) : candidateStatus net u = none := by
  by_contra hne
  rcases Option.ne_none_iff_exists'.mp hne with ⟨s, hs⟩
  unfold tryCandidates at h
  simp [hs] at h

theorem candidateStatus_none_head {net : Network} {u : String} {s : Nat}
    (hc : candidateStatus net u = none) (hh : net.head u = .ok s) : 400 ≤ s := by
  by_contra hlt
  unfold candidateStatus at hc
  rw [hh] at hc
  simp only [] at hc
  rw [if_neg (by omega)] at hc
  simp at hc

/-- C1: as soon as a candidate URL yields a status code below 400 (from its
HEAD probe, or from the escalated GET issued when the probe reported a
status of at least 400), check_url returns that status with no error
immediately: the trace consists exactly of the probes of the failed
earlier candidates plus those of the succeeding one - no later candidate,
no sleep, no further round and no final probe - and only one round is
entered. -/
theorem check_url_short_circuits (net : Network) (maxRetries : Nat) (url : String)
    (pre : List String) (u : String) (rest : List String) (s : Nat)
    (hsplit : urls_to_try url = pre ++ u :: rest)
    (hpre : ∀ v ∈ pre, candidateStatus net v = none)
    (hu : candidateStatus net u = some s) :
    check_url net maxRetries url =
      ((url, some s, none), (pre.map (candidateEvents net)).flatten ++ candidateEvents net u)
    ∧ (attemptLoop net (urls_to_try url) (maxRetries + 1)).2.1 = 1
    ∧ ((check_url net maxRetries url).2).count Event.sleep = 0
    ∧ s < 400 := by
  have htc : tryCandidates net (urls_to_try url) =
      (some s, (pre.map (candidateEvents net)).flatten ++ candidateEvents net u) := by
    rw [hsplit]
    exact tryCandidates_first_success pre u rest hpre hu
  have hfst : (tryCandidates net (urls_to_try url)).1 = some s := by rw [htc]
  have hal := attemptLoop_success hfst maxRetries
  have hcu : check_url net maxRetries url =
      ((url, some s, none), (pre.map (candidateEvents net)).flatten ++ candidateEvents net u) := by
    unfold check_url
    rw [hal]
    simp only []
    rw [htc]
  refine ⟨hcu, by rw [hal], ?_, candidateStatus_lt_400 hu⟩
  rw [hcu]
  have := tryCandidates_sleep_count net (urls_to_try url)
  rw [htc] at this
  exact this

/-- C10: every return path of check_url yields a triple whose first
component is the input URL itself (even when a fallback candidate supplied
the status), and whose error component is non-None exactly when the status
component is None. -/
theorem check_url_triple_shape (net : Network) (maxRetries : Nat) (url : String) :
    (check_url net maxRetries url).1.1 = url
    ∧ ((check_url net maxRetries url).1.2.2 ≠ none ↔
        (check_url net maxRetries url).1.2.1 = none) := by
  unfold check_url
  cases h : (attemptLoop net (urls_to_try url) (maxRetries + 1)).1 with
  | some s => simp [h]
  | none =>
    cases hh : net.head url with
    | ok s => simp [h, hh]
    | error e => simp [h, hh]

/-- C3: when every retry round fails, check_url issues exactly one final
plain HEAD probe, on the original URL only; if that probe returns a status
code the triple carries that status (necessarily at least 400, a Dead
outcome) and no error; if it raises, the triple carries no status and the
error message (an Unreachable outcome). -/
theorem check_url_exhausted_final_probe (net : Network) (maxRetries : Nat) (url : String)
    (h : (attemptLoop net (urls_to_try url) (maxRetries + 1)).1 = none) :
    (check_url net maxRetries url).2 =
      (attemptLoop net (urls_to_try url) (maxRetries + 1)).2.2 ++ [Event.headReq url]
    ∧ (∀ s, net.head url = .ok s →
        (check_url net maxRetries url).1 = (url, some s, none) ∧ 400 ≤ s)
    ∧ (∀ e, net.head url = .error e →
        (check_url net maxRetries url).1 = (url, none, some e)) := by
  have hcand : candidateStatus net url = none := by
    rcases urls_to_try_head url with ⟨t, ht⟩
    have := attemptLoop_fst_none h
    rw [ht] at this
    exact tryCandidates_fst_none_head this
  refine ⟨?_, ?_, ?_⟩
  · rcases hcase : net.head url with e | s <;> simp [check_url, h, hcase]
  · intro s hh
    exact ⟨by simp [check_url, h, hh], candidateStatus_none_head hcand hh⟩
  · intro e hh
    simp [check_url, h, hh]

/-- C4: verification enters at most max_retries + 1 rounds; the one-second
sleeps separate consecutive rounds (their number is one less than the
number of rounds entered), so at most max_retries sleeps happen, and none
at all when the first round succeeds. -/
theorem check_url_rounds_and_sleeps (net : Network) (maxRetries : Nat) (url : String) :
    (attemptLoop net (urls_to_try url) (maxRetries + 1)).2.1 ≤ maxRetries + 1
    ∧ ((attemptLoop net (urls_to_try url) (maxRetries + 1)).2.2).count Event.sleep
        = (attemptLoop net (urls_to_try url) (maxRetries + 1)).2.1 - 1
    ∧ ((check_url net maxRetries url).2).count Event.sleep ≤ maxRetries
    ∧ ((tryCandidates net (urls_to_try url)).1.isSome = true →
        (attemptLoop net (urls_to_try url) (maxRetries + 1)).2.1 = 1
        ∧ ((check_url net maxRetries url).2).count Event.sleep = 0) := by
  have hle := attemptLoop_rounds_le net (urls_to_try url) (maxRetries + 1)
  have hsc := attemptLoop_sleep_count net (urls_to_try url) (maxRetries + 1)
  have htrace : ((check_url net maxRetries url).2).count Event.sleep
      = ((attemptLoop net (urls_to_try url) (maxRetries + 1)).2.2).count Event.sleep := by
    unfold check_url
    cases h : (attemptLoop net (urls_to_try url) (maxRetries + 1)).1 with
    | some s => simp [h]
    | none =>
      cases hh : net.head url with
      | ok s => simp [h, hh, List.count_append, List.count_singleton]
      | error e => simp [h, hh, List.count_append, List.count_singleton]
  refine ⟨hle, hsc, by omega, ?_⟩
  intro hsome
  rcases Option.isSome_iff_exists.mp hsome with ⟨s, hs⟩
  have hal := attemptLoop_success hs maxRetries
  constructor
  · rw [hal]
  · rw [htrace, hal]
    simpa using tryCandidates_sleep_count net (urls_to_try url)

/-- Network on which every request succeeds with status 200. -/
def netOk : Network :=
  { head := fun _ => .ok 200, get := fun _ => .ok 200 }

/-- Network on which every request returns status 404. -/
def netDead404 : Network :=
  { head := fun _ => .ok 404, get := fun _ => .ok 404 }

/-- Network realising the specification's markdown-fallback example: the
html sibling of the document answers 200, everything else is unreachable. -/
def mdNet : Network :=
  { head := fun u => if u = "https://x/doc.html" then .ok 200 else .error "unreachable"
    get := fun _ => .error "unreachable" }

theorem check_url_short_circuits_witness :
    urls_to_try "http://a/x" = [] ++ "http://a/x" :: []
    ∧ candidateStatus netOk "http://a/x" = some 200
    ∧ (check_url netOk 2 "http://a/x" =
        (("http://a/x", some 200, none),
          (List.map (candidateEvents netOk) []).flatten ++ candidateEvents netOk "http://a/x")
      ∧ (attemptLoop netOk (urls_to_try "http://a/x") (2 + 1)).2.1 = 1
      ∧ ((check_url netOk 2 "http://a/x").2).count Event.sleep = 0
      ∧ 200 < 400) :=
  ⟨by decide, by decide,
    check_url_short_circuits netOk 2 "http://a/x" [] "http://a/x" [] 200 (by decide)
      (by simp) (by decide)⟩

theorem check_url_exhausted_final_probe_witness :
    (attemptLoop netDead404 (urls_to_try "http://a/x") (0 + 1)).1 = none
    ∧ netDead404.head "http://a/x" = .ok 404
    ∧ ((check_url netDead404 0 "http://a/x").1 = ("http://a/x", some 404, none) ∧ 400 ≤ 404) :=
  ⟨by decide, by rfl,
    (check_url_exhausted_final_probe netDead404 0 "http://a/x" (by decide)).2.1 404 (by rfl)⟩

theorem check_url_rounds_and_sleeps_witness :
    (tryCandidates netOk (urls_to_try "http://b/y")).1.isSome = true
    ∧ ((attemptLoop netOk (urls_to_try "http://b/y") (2 + 1)).2.1 = 1
      ∧ ((check_url netOk 2 "http://b/y").2).count Event.sleep = 0) :=
  ⟨by decide, (check_url_rounds_and_sleeps netOk 2 "http://b/y").2.2.2 (by decide)⟩

/-- C2 (counterexample): a URL whose path component ends in the markdown
extension ".md" but whose full string does not (a query string follows)
gets a single candidate, not three. -/
theorem urls_to_try_path_counterexample :
    strEndsWith (urlPath "https://x/doc.md?v=1") ".md" = true
    ∧ urls_to_try "https://x/doc.md?v=1" = ["https://x/doc.md?v=1"]
    ∧ (urls_to_try "https://x/doc.md?v=1").length = 1 := by
  decide

/-- C2 (amended): the markdown fallback is keyed on the full URL string
ending (case-insensitively) in ".md": such a URL gets the three candidates
in order (unchanged, ".md" stripped, ".md" replaced by ".html"), any other
URL exactly one; and verifying https://x/doc.md when only
https://x/doc.html answers 200 yields status 200. -/
theorem urls_to_try_markdown_policy (url : String) :
    (is_markdown url = true →
      urls_to_try url = [url, strDropRight url 3, strDropRight url 3 ++ ".html"])
    ∧ (is_markdown url = false → urls_to_try url = [url])
    ∧ (check_url mdNet 2 "https://x/doc.md").1 = ("https://x/doc.md", some 200, none) := by
  refine ⟨fun h => by simp [urls_to_try, h], fun h => by simp [urls_to_try, h], by decide⟩

theorem urls_to_try_markdown_policy_witness :
    is_markdown "https://x/doc.md" = true
    ∧ urls_to_try "https://x/doc.md" =
        ["https://x/doc.md", strDropRight "https://x/doc.md" 3,
         strDropRight "https://x/doc.md" 3 ++ ".html"] :=
  ⟨by decide, (urls_to_try_markdown_policy "https://x/doc.md").1 (by decide)⟩

/-- Configuration with seed host "a", domain scope on, no ignore patterns
and no retries. -/
def cfgA : Config :=
  { domain := "a", sameDomainOnly := true, ignorePatterns := [], maxRetries := 0 }

theorem mem_insertS_self (a : String) (l : List String) : a ∈ insertS a l := by
  unfold insertS
  split
  · assumption
  · simp

theorem should_visit_eq_classify (cfg : Config) (visited external : List String)
    (url : String) :
    ((should_visit cfg visited external url).1 = true ↔
      classify_spec cfg visited url = .Crawlable)
    ∧ (should_visit cfg visited external url).2 =
        (if classify_spec cfg visited url = .External then insertS url external
         else external) := by
  by_cases h1 : (strStartsWith url "http://" || strStartsWith url "https://") = true
  case neg => simp [should_visit, classify_spec, h1]
  case pos =>
    by_cases h2 : url ∈ visited
    · simp [should_visit, classify_spec, h1, h2]
    · by_cases h3 : (cfg.ignorePatterns.any fun p => p url) = true
      · simp [should_visit, classify_spec, h1, h2, h3]
      · by_cases h4 : (cfg.sameDomainOnly && (netloc url != cfg.domain)) = true
        · simp [should_visit, classify_spec, h1, h2, h3, h4]
        · simp [should_visit, classify_spec, h1, h2, h3, h4]

/-- C5: should_visit applies the classifier rules in order with the first
match winning - non-http(s) URL Ignored, then visited URL Ignored, then
ignore-pattern match Ignored, then (with domain scope on) foreign host
External and recorded in external_links, else Crawlable - and its Boolean
result says exactly that the classification is Crawlable, its returned
external set gaining the URL exactly in the External case. -/
theorem should_visit_applies_rules_in_order (cfg : Config) (visited external : List String)
    (url : String) :
    ((strStartsWith url "http://" || strStartsWith url "https://") = false →
      should_visit cfg visited external url = (false, external)
      ∧ classify_spec cfg visited url = .Ignored)
    ∧ (url ∈ visited →
      should_visit cfg visited external url = (false, external)
      ∧ classify_spec cfg visited url = .Ignored)
    ∧ ((cfg.ignorePatterns.any fun p => p url) = true →
      should_visit cfg visited external url = (false, external)
      ∧ classify_spec cfg visited url = .Ignored)
    ∧ ((strStartsWith url "http://" || strStartsWith url "https://") = true →
       url ∉ visited →
       (cfg.ignorePatterns.any fun p => p url) = false →
       cfg.sameDomainOnly = true → netloc url ≠ cfg.domain →
      should_visit cfg visited external url = (false, insertS url external)
      ∧ classify_spec cfg visited url = .External
      ∧ url ∈ (should_visit cfg visited external url).2)
    ∧ ((strStartsWith url "http://" || strStartsWith url "https://") = true →
       url ∉ visited →
       (cfg.ignorePatterns.any fun p => p url) = false →
       (cfg.sameDomainOnly = false ∨ netloc url = cfg.domain) →
      should_visit cfg visited external url = (true, external)
      ∧ classify_spec cfg visited url = .Crawlable)
    ∧ ((should_visit cfg visited external url).1 = true ↔
        classify_spec cfg visited url = .Crawlable)
    ∧ (should_visit cfg visited external url).2 =
        (if classify_spec cfg visited url = .External then insertS url external
         else external) := by
  refine ⟨?_, ?_, ?_, ?_, ?_, (should_visit_eq_classify cfg visited external url).1,
    (should_visit_eq_classify cfg visited external url).2⟩
  · intro h1
    constructor <;> simp [should_visit, classify_spec, h1]
  · intro h2
    by_cases h1 : (strStartsWith url "http://" || strStartsWith url "https://") = true <;>
      constructor <;> simp [should_visit, classify_spec, h1, h2]
  · intro h3
    by_cases h1 : (strStartsWith url "http://" || strStartsWith url "https://") = true
    · by_cases h2 : url ∈ visited <;>
        constructor <;> simp [should_visit, classify_spec, h1, h2, h3]
    · constructor <;> simp [should_visit, classify_spec, h1]
  · intro h1 h2 h3 h4 h5
    have hb : (cfg.sameDomainOnly && (netloc url != cfg.domain)) = true := by
      simp [h4, bne_iff_ne, h5]
    refine ⟨by simp [should_visit, h1, h2, h3, hb], by simp [classify_spec, h1, h2, h3, hb], ?_⟩
    have : should_visit cfg visited external url = (false, insertS url external) := by
      simp [should_visit, h1, h2, h3, hb]
    rw [this]
    exact mem_insertS_self url external
  · intro h1 h2 h3 h4
    have hb : (cfg.sameDomainOnly && (netloc url != cfg.domain)) = false := by
      rcases h4 with h | h
      · simp [h]
      · simp [h]
    constructor <;> simp [should_visit, classify_spec, h1, h2, h3, hb]

theorem should_visit_applies_rules_in_order_witness :
    (strStartsWith "mailto:a@b" "http://" || strStartsWith "mailto:a@b" "https://") = false
    ∧ (should_visit cfgA [] [] "mailto:a@b" = (false, [])
      ∧ classify_spec cfgA [] "mailto:a@b" = .Ignored) :=
  ⟨by decide, (should_visit_applies_rules_in_order cfgA [] [] "mailto:a@b").1 (by decide)⟩

/-- C9 (counterexample): a resource tag with an absolute src containing a
fragment survives extraction unstripped, so the returned set contains a
URL with a '#'. -/
theorem extract_links_fragment_counterexample :
    "http://x/p.png#f" ∈ extract_links urljoinAbs "http://x/"
        [{ name := "img", href := none, src := some "http://x/p.png#f" }]
    ∧ '#' ∈ "http://x/p.png#f".toList := by
  decide

theorem not_hash_mem_stripFragment (s : String) : '#' ∉ (stripFragment s).toList := by
  intro hmem
  have h2 : ('#' : Char) ∈ s.toList.takeWhile (fun c => c != '#') := hmem
  have := List.mem_takeWhile_imp h2
  simp at this

/-- C9 (amended): every URL contributed by the anchor loop of
extract_links has its fragment stripped (contains no '#'); the URLs
contributed by the img/script/link/iframe loop are resolved but not
fragment-stripped. -/
theorem anchor_links_no_fragment (join : String → String → String) (url : String)
    (soup : List Tag) (u : String) (hu : u ∈ anchor_links join url soup) :
    '#' ∉ u.toList
    ∧ extract_links join url soup = anchor_links join url soup ++ resource_links join url soup := by
  refine ⟨?_, rfl⟩
  unfold anchor_links at hu
  rcases List.mem_filterMap.mp hu with ⟨t, _, ht⟩
  by_cases hname : t.name = "a"
  · rw [if_pos hname] at ht
    cases hhref : t.href with
    | none => rw [hhref] at ht; simp at ht
    | some h =>
      rw [hhref] at ht
      simp only [] at ht
      split at ht
      · simp at ht
      · have : u = stripFragment (join url h) := by
          injection ht with ht'
          exact ht'.symm
        rw [this]
        exact not_hash_mem_stripFragment (join url h)
  · rw [if_neg hname] at ht
    simp at ht

theorem anchor_links_no_fragment_witness :
    "http://x/a" ∈ anchor_links urljoinAbs "http://x/"
        [{ name := "a", href := some "http://x/a#frag", src := none }]
    ∧ '#' ∉ "http://x/a".toList :=
  ⟨by decide,
    (anchor_links_no_fragment urljoinAbs "http://x/"
      [{ name := "a", href := some "http://x/a#frag", src := none }]
      "http://x/a" (by decide)).1⟩
theorem mem_insertS {x a : String} {l : List String} :
    x ∈ insertS a l ↔ x = a ∨ x ∈ l := by
  unfold insertS
  split
  · rename_i h
    constructor
    · exact fun hx => Or.inr hx
    · rintro (rfl | hx)
      · exact h
      · exact hx
  · simp

theorem mem_removeS {x a : String} {l : List String} :
    x ∈ removeS a l ↔ x ∈ l ∧ x ≠ a := by
  unfold removeS
  simp [List.mem_filter]

theorem mem_unionS {x : String} : ∀ (adds l : List String),
    x ∈ unionS l adds ↔ x ∈ l ∨ x ∈ adds := by
  intro adds
  induction adds with
  | nil => intro l; simp [unionS]
  | cons a t ih =>
    intro l
    unfold unionS
    simp only [List.foldl_cons]
    have h := ih (insertS a l)
    unfold unionS at h
    rw [h, mem_insertS]
    simp only [List.mem_cons]
    tauto

theorem should_visit_fst_not_visited {cfg : Config} {visited ext : List String} {url : String}
    (h : (should_visit cfg visited ext url).1 = true) : url ∉ visited := by
  intro hmem
  unfold should_visit at h
  by_cases h1 : ¬ (strStartsWith url "http://" || strStartsWith url "https://") = true
  · rw [if_pos h1] at h
    simp at h
  · rw [if_neg h1, if_pos hmem] at h
    simp at h

theorem filterLinks_newLinks_not_visited {cfg : Config} {visited : List String} :
    ∀ (links ext : List String) (l : String),
    l ∈ (filterLinks cfg visited links ext).1 → l ∉ visited := by
  intro links
  induction links with
  | nil => intro ext l hl; simp [filterLinks] at hl
  | cons a t ih =>
    intro ext l hl
    unfold filterLinks at hl
    simp only [] at hl
    by_cases hsv : (should_visit cfg visited ext a).1 = true
    · rw [if_pos hsv] at hl
      rcases List.mem_cons.mp hl with rfl | hl'
      · exact should_visit_fst_not_visited hsv
      · exact ih _ l hl'
    · rw [if_neg hsv] at hl
      exact ih _ l hl

/-- C6: throughout a crawl run the pending set and the visited set stay
disjoint, so a page in visited_urls is never re-added to to_visit and no
page is popped for fetching twice. -/
theorem crawl_visited_disjoint_frontier (cfg : Config) (startUrl : String) (st : CrawlState)
    (h : Reachable cfg startUrl st) : ∀ x ∈ st.visited, x ∉ st.toVisit := by
  unfold Reachable at h
  induction h with
  | refl => intro x hx; simp [initState] at hx
  | tail hsteps hstep ih =>
    cases hstep with
    | html net st' u links hu =>
      intro x hx hxt
      simp only [crawlStepHtml] at hx hxt
      rw [mem_insertS] at hx
      rw [mem_unionS] at hxt
      rcases hxt with hxt | hxt
      · rw [mem_removeS] at hxt
        rcases hx with rfl | hx
        · exact hxt.2 rfl
        · exact ih x hx hxt.1
      · have hnv := filterLinks_newLinks_not_visited _ _ x hxt
        rw [mem_insertS] at hnv
        exact hnv hx
    | skip st' u hu =>
      intro x hx hxt
      simp only [crawlStepSkip] at hx hxt
      rw [mem_insertS] at hx
      rw [mem_removeS] at hxt
      rcases hx with rfl | hx
      · exact hxt.2 rfl
      · exact ih x hx hxt.1
    | fail st' u msg hu =>
      intro x hx hxt
      simp only [crawlStepFail] at hx hxt
      rw [mem_insertS] at hx
      rw [mem_removeS] at hxt
      rcases hx with rfl | hx
      · exact hxt.2 rfl
      · exact ih x hx hxt.1
/-- Network on which every request raises a RequestException whose message
is the empty string. -/
def netE : Network :=
  { head := fun _ => .error "", get := fun _ => .error "" }

theorem crawl_visited_disjoint_frontier_witness :
    Reachable cfgA "http://a/"
      (crawlStepHtml cfgA netE (initState "http://a/") "http://a/" ["http://a/x"])
    ∧ "http://a/" ∈
        (crawlStepHtml cfgA netE (initState "http://a/") "http://a/" ["http://a/x"]).visited
    ∧ "http://a/" ∉
        (crawlStepHtml cfgA netE (initState "http://a/") "http://a/" ["http://a/x"]).toVisit := by
  have hreach : Reachable cfgA "http://a/"
      (crawlStepHtml cfgA netE (initState "http://a/") "http://a/" ["http://a/x"]) :=
    Relation.ReflTransGen.tail Relation.ReflTransGen.refl
      (CrawlStep.html netE (initState "http://a/") "http://a/" ["http://a/x"] (by decide))
  exact ⟨hreach, by decide,
    crawl_visited_disjoint_frontier cfgA "http://a/" _ hreach "http://a/" (by decide)⟩

/-- C8 (amended): every entry of broken_links is keyed either by a page
that was popped and fetched during the crawl (a member of visited_urls) or
by the synthetic "script_error" bucket used when fetching a page raises. -/
theorem crawl_broken_keys (cfg : Config) (startUrl : String) (st : CrawlState)
    (h : Reachable cfg startUrl st) :
    ∀ e ∈ st.broken, e.1 ∈ st.visited ∨ e.1 = "script_error" := by
  unfold Reachable at h
  induction h with
  | refl => intro e he; simp [initState] at he
  | tail hsteps hstep ih =>
    cases hstep with
    | html net st' u links hu =>
      intro e he
      simp only [crawlStepHtml] at he ⊢
      rw [List.mem_append] at he
      rcases he with he | he
      · rcases ih e he with hv | hs
        · exact Or.inl (mem_insertS.mpr (Or.inr hv))
        · exact Or.inr hs
      · rcases List.mem_map.mp he with ⟨r, hr, heq⟩
        rw [← heq]
        exact Or.inl (mem_insertS.mpr (Or.inl rfl))
    | skip st' u hu =>
      intro e he
      simp only [crawlStepSkip] at he ⊢
      rcases ih e he with hv | hs
      · exact Or.inl (mem_insertS.mpr (Or.inr hv))
      · exact Or.inr hs
    | fail st' u msg hu =>
      intro e he
      simp only [crawlStepFail] at he ⊢
      rw [List.mem_append] at he
      rcases he with he | he
      · rcases ih e he with hv | hs
        · exact Or.inl (mem_insertS.mpr (Or.inr hv))
        · exact Or.inr hs
      · rcases List.mem_singleton.mp he with rfl
        exact Or.inr rfl

/-- C8 (counterexample): when fetching the seed raises, broken_links gains
the key "script_error", which is not a page that was fetched. -/
theorem crawl_broken_keys_counterexample :
    Reachable cfgA "http://a/" (crawlStepFail (initState "http://a/") "http://a/" "boom")
    ∧ "script_error" ∈
        ((crawlStepFail (initState "http://a/") "http://a/" "boom").broken.map Prod.fst)
    ∧ "script_error" ∉ (crawlStepFail (initState "http://a/") "http://a/" "boom").visited := by
  refine ⟨?_, by decide, by decide⟩
  exact Relation.ReflTransGen.tail Relation.ReflTransGen.refl
    (CrawlStep.fail (initState "http://a/") "http://a/" "boom" (by decide))

theorem crawl_broken_keys_witness :
    Reachable cfgA "http://a/" (crawlStepFail (initState "http://a/") "http://a/" "boom")
    ∧ ("script_error", "http://a/", (none : Option Nat), some "boom") ∈
        (crawlStepFail (initState "http://a/") "http://a/" "boom").broken
    ∧ (("script_error", "http://a/", (none : Option Nat), some "boom").1 ∈
         (crawlStepFail (initState "http://a/") "http://a/" "boom").visited
       ∨ ("script_error", "http://a/", (none : Option Nat), some "boom").1 = "script_error") := by
  have hreach : Reachable cfgA "http://a/"
      (crawlStepFail (initState "http://a/") "http://a/" "boom") :=
    Relation.ReflTransGen.tail Relation.ReflTransGen.refl
      (CrawlStep.fail (initState "http://a/") "http://a/" "boom" (by decide))
  exact ⟨hreach, by decide,
    crawl_broken_keys cfgA "http://a/" _ hreach
      ("script_error", "http://a/", none, some "boom") (by decide)⟩
theorem isBroken_iff (status : Option Nat) (err : Option String) :
    isBroken status err = true ↔
      ((∃ s, status = some s ∧ 400 ≤ s) ∨ (∃ e, err = some e ∧ e ≠ "")) := by
  unfold isBroken
  cases status with
  | none =>
    cases err with
    | none => simp
    | some e => simp [bne_iff_ne]
  | some s =>
    cases err with
    | none =>
      simp only [Bool.or_false, Bool.and_eq_true, bne_iff_ne, decide_eq_true_eq]
      constructor
      · rintro ⟨h0, h4⟩
        exact Or.inl ⟨s, rfl, h4⟩
      · rintro (⟨s', hs', h4⟩ | ⟨e, he, _⟩)
        · injection hs' with h
          subst h
          exact ⟨by omega, h4⟩
        · simp at he
    | some e =>
      simp only [Bool.or_eq_true, Bool.and_eq_true, bne_iff_ne, decide_eq_true_eq]
      constructor
      · rintro (⟨h0, h4⟩ | hne)
        · exact Or.inl ⟨s, rfl, h4⟩
        · exact Or.inr ⟨e, rfl, hne⟩
      · rintro (⟨s', hs', h4⟩ | ⟨e', he', hne⟩)
        · injection hs' with h
          subst h
          exact Or.inl ⟨by omega, h4⟩
        · injection he' with h
          subst h
          exact Or.inr hne

/-- C7 (amended): an outcome collected for a page is appended to
broken_links[page] exactly when its status code is at least 400 (a Dead
outcome) or its error message is present and non-empty (an Unreachable
outcome with a non-empty message - the source tests the message's Python
truthiness); outcomes with a status below 400 (Alive) are never appended,
and a page all of whose collected outcomes are alive gains no
broken_links entry. -/
theorem crawlStepHtml_broken_recording (cfg : Config) (net : Network) (st : CrawlState)
    (u : String) (links : List String) :
    (∀ r ∈ (filterLinks cfg (insertS u st.visited) links st.external).2.1.map
        (fun l => (check_url net cfg.maxRetries l).1),
      ((u, r) ∈ (crawlStepHtml cfg net st u links).broken ↔
        ((u, r) ∈ st.broken ∨ isBroken r.2.1 r.2.2 = true)))
    ∧ (∀ (status : Option Nat) (err : Option String),
        isBroken status err = true ↔
          ((∃ s, status = some s ∧ 400 ≤ s) ∨ (∃ e, err = some e ∧ e ≠ "")))
    ∧ ((∀ r ∈ (filterLinks cfg (insertS u st.visited) links st.external).2.1.map
          (fun l => (check_url net cfg.maxRetries l).1),
        ∃ s, r.2.1 = some s ∧ s < 400 ∧ r.2.2 = none) →
      (crawlStepHtml cfg net st u links).broken = st.broken
      ∧ (u ∉ st.broken.map Prod.fst →
          u ∉ (crawlStepHtml cfg net st u links).broken.map Prod.fst)) := by
  refine ⟨?_, isBroken_iff, ?_⟩
  · intro r hr
    simp only [crawlStepHtml]
    rw [List.mem_append]
    constructor
    · rintro (h | h)
      · exact Or.inl h
      · rcases List.mem_map.mp h with ⟨r', hr', heq⟩
        injection heq with h1 h2
        subst h2
        exact Or.inr (List.mem_filter.mp hr').2
    · rintro (h | h)
      · exact Or.inl h
      · exact Or.inr (List.mem_map.mpr ⟨r, List.mem_filter.mpr ⟨hr, h⟩, rfl⟩)
  · intro hall
    have hfilter :
        ((filterLinks cfg (insertS u st.visited) links st.external).2.1.map
            (fun l => (check_url net cfg.maxRetries l).1)).filter
          (fun r => isBroken r.2.1 r.2.2) = [] := by
      rw [List.filter_eq_nil_iff]
      intro r hr
      rcases hall r hr with ⟨s, hs, hlt, herr⟩
      have hd : decide (400 ≤ s) = false := by
        simp
        omega
      simp [isBroken, hs, herr, hd]
    have hbroken : (crawlStepHtml cfg net st u links).broken = st.broken := by
      simp only [crawlStepHtml]
      rw [hfilter]
      simp
    exact ⟨hbroken, fun hk => by rw [hbroken]; exact hk⟩

/-- C7 (counterexample): an Unreachable outcome whose transport-error
message is the empty string is a collected failure, yet the source's
truthiness test `(status_code and status_code >= 400) or error` rejects
it, so nothing is appended to broken_links. -/
theorem crawlStepHtml_broken_recording_counterexample :
    (check_url netE 0 "http://a/x").1 = ("http://a/x", none, some "")
    ∧ ("http://a/x", (none : Option Nat), some "") ∈
        (filterLinks cfgA (insertS "http://a/" (initState "http://a/").visited)
            ["http://a/x"] (initState "http://a/").external).2.1.map
          (fun l => (check_url netE cfgA.maxRetries l).1)
    ∧ (crawlStepHtml cfgA netE (initState "http://a/") "http://a/" ["http://a/x"]).broken
        = [] := by
  decide

theorem crawlStepHtml_broken_recording_witness :
    ("http://a/x", some 404, (none : Option String)) ∈
        (filterLinks cfgA (insertS "http://a/" (initState "http://a/").visited)
            ["http://a/x"] (initState "http://a/").external).2.1.map
          (fun l => (check_url netDead404 cfgA.maxRetries l).1)
    ∧ (("http://a/", "http://a/x", some 404, (none : Option String)) ∈
          (crawlStepHtml cfgA netDead404 (initState "http://a/") "http://a/"
            ["http://a/x"]).broken ↔
        (("http://a/", "http://a/x", some 404, (none : Option String)) ∈
            (initState "http://a/").broken
          ∨ isBroken (some 404) (none : Option String) = true)) :=
  ⟨by decide,
    (crawlStepHtml_broken_recording cfgA netDead404 (initState "http://a/") "http://a/"
        ["http://a/x"]).1
      ("http://a/x", some 404, none) (by decide)⟩
